import Mathlib

set_option autoImplicit false

/-!
Shallow embedding of the validation-and-storage core of the `conductor`
repository (Rust), together with proofs about the embedded functions.

Conventions of the embedding:
* byte strings crossing the sandbox boundary are `List Nat` values (one
  element per byte);
* fallible Rust functions returning `Result` become `Except`;
* a Rust `panic!` / failed `unwrap` / failed `assert!` is represented by
  `Except.error (RustPanic.mk msg)` in functions whose Rust original can
  abort;
* `&mut` state is threaded explicitly: a Rust method mutating `self`
  becomes a Lean function returning the updated value.

Definitions carrying a doc comment starting with `Modelled from the spec:`
translate parts of the repository that are referenced by the translated
sources but whose own source files are not part of the translation unit;
they follow the specification's description of those parts.
-/

namespace Conductor

/-- Decidable equality for `Except`, used to evaluate the embedded
functions on concrete inputs. -/
instance {ε α : Type} [DecidableEq ε] [DecidableEq α] : DecidableEq (Except ε α) := fun x y =>
  match x, y with
  | .ok a, .ok b =>
    if h : a = b then isTrue (by rw [h]) else isFalse (fun hc => h (Except.ok.inj hc))
  | .error a, .error b =>
    if h : a = b then isTrue (by rw [h]) else isFalse (fun hc => h (Except.error.inj hc))
  | .ok _, .error _ => isFalse (fun hc => Except.noConfusion hc)
  | .error _, .ok _ => isFalse (fun hc => Except.noConfusion hc)

/-- Byte strings (serialized payloads, addresses) as lists of byte values. -/
abbrev Bytes := List Nat

/-- Content addresses.  In the source an `Address` is the hash string of a
canonical serialization; the embedding uses the (injective) serialized
form itself as the address, which models a collision-free hash. -/
abbrev Address := Bytes

/-- Error type of the core (`HolochainError`), restricted to the variants
the translated sources construct. -/
inductive HolochainError where
  | ErrorGeneric (msg : String)
  | ValidationFailed (msg : String)
  | SerializationError (msg : String)
  deriving DecidableEq, Repr

/-- A Rust abort: `panic!`, a failed `unwrap`/`expect`, or a failed
`assert_eq!`.  Carries the panic message. -/
structure RustPanic where
  msg : String
  deriving DecidableEq, Repr

/-- A wasmi `Trap` (sandbox trap), as produced by `Trap::new(TrapKind::…)`. -/
inductive Trap where
  | unreachable
  deriving DecidableEq, Repr

/-! ### Entries, chain headers, DHT content -/

/-- `Entry` variants used by the translated sources: application entries
and deletion markers (`entry/mod.rs` is outside the translation unit; the
variants and their content-addressing follow the data model section of the
spec). -/
inductive Entry where
  | App (entryType : Bytes) (value : Bytes)
  | Deletion (deletedEntryAddress : Address)
  deriving DecidableEq, Repr

/-- Address of an entry: hash of its canonical serialization, modelled by
an injective tagged serialization. -/
def Entry.address : Entry → Address
  | .App entryType value => 97 :: entryType ++ 124 :: value
  | .Deletion deletedEntryAddress => 100 :: deletedEntryAddress

/-- A chain header: links an entry to its author's local hash chain.
Fields restricted to the ones the translated sources read. -/
structure ChainHeader where
  entryAddress : Address
  author : Bytes
  timestamp : Nat
  deriving DecidableEq, Repr

/-- Address of a header (hash of its serialization, modelled injectively). -/
def ChainHeader.address (h : ChainHeader) : Address :=
  104 :: h.entryAddress ++ 124 :: h.author ++ [124, h.timestamp]

/-- Pairing of an entry with the chain header that provides its
provenance; used whenever entries cross the node boundary. -/
structure EntryWithHeader where
  entry : Entry
  header : ChainHeader
  deriving DecidableEq, Repr

/-- Content stored in the content-addressable store: serialized entries or
serialized chain headers (both live in the same CAS). -/
inductive Content where
  | entry (e : Entry)
  | header (h : ChainHeader)
  deriving DecidableEq, Repr

/-- `ChainHeader::try_from_content`: deserializing CAS content as a chain
header; fails on content that is not a header. -/
def ChainHeader.try_from_content : Content → Except HolochainError ChainHeader
  | .header h => .ok h
  | .entry _ => .error (.SerializationError "not a ChainHeader")

/-! ### Validation data -/

/-- Validation lifecycle: validating one's own about-to-be-committed entry
(`Chain`) vs an entry received for holding (`Dht`). -/
inductive EntryLifecycle where
  | Chain
  | Dht
  deriving DecidableEq, Repr

/-- Validation action. -/
inductive EntryAction where
  | Create
  | Modify
  | Delete
  deriving DecidableEq, Repr

/-- The validation package: the evidence bundle required to evaluate an
entry's validation rule.  The translated sources only pass it through, so
only the provenance header is modelled. -/
structure ValidationPackage where
  chain_header : ChainHeader
  deriving DecidableEq, Repr

/-- Bundle handed to the validation callback. -/
structure ValidationData where
  package : ValidationPackage
  lifecycle : EntryLifecycle
  action : EntryAction
  deriving DecidableEq, Repr

/-! ### DHT store (CAS + EAV metadata) -/

/-- EAV attributes used by the translated sources. -/
inductive Attribute where
  | EntryHeader
  | CrudStatus
  | LinkTag (tag : String)
  deriving DecidableEq, Repr

/-- One EAV metadata row: (entity, attribute, value) plus the insertion
index that orders rows of the same attribute. -/
structure Eavi where
  entity : Address
  attr : Attribute
  value : Address
  index : Nat
  deriving DecidableEq, Repr

/-- An EAV query: filter by any subset of entity / attribute / value. -/
structure EaviQuery where
  entity : Option Address
  attr : Option Attribute
  value : Option Address
  deriving DecidableEq, Repr

/-- Whether a row matches the filled-in components of a query. -/
def EaviQuery.matches (q : EaviQuery) (e : Eavi) : Bool :=
  (match q.entity with | none => true | some a => e.entity == a) &&
  (match q.attr with | none => true | some at_ => e.attr == at_) &&
  (match q.value with | none => true | some v => e.value == v)

/-- Modelled from the spec: the EAV store's `fetch_eavi` with the
`IndexFilter::LatestByAttribute` selection (the EAV store implementation
is outside the translation unit).  Rows are filtered by the query and, for
each distinct value, only the row with the greatest insertion index is
kept. -/
def fetch_eavi (store : List Eavi) (q : EaviQuery) : List Eavi :=
  let hits := store.filter q.matches
  hits.filter (fun e => !(hits.any (fun f => f.value == e.value && e.index < f.index)))

/-- The DHT store slice: a CAS (content hash → content) plus the EAV
metadata store. -/
structure DhtStore where
  contentStorage : List (Address × Content)
  metaStorage : List Eavi
  deriving DecidableEq, Repr

/-- CAS fetch: `fetch` returns `Ok(Some(content))` when the address is
present and `Ok(None)` otherwise (the storage backends used by the
translated sources do not produce fetch errors in this model). -/
def DhtStore.fetch (s : DhtStore) (a : Address) : Except HolochainError (Option Content) :=
  .ok ((s.contentStorage.find? (fun p => p.1 == a)).map Prod.snd)

/-- CAS lookup specialised to entries, used to phrase "appears in a Get
query": the entry stored at an address, if any. -/
def DhtStore.get_entry (s : DhtStore) (a : Address) : Option Entry :=
  match (s.contentStorage.find? (fun p => p.1 == a)).map Prod.snd with
  | some (.entry e) => some e
  | _ => none

/-- CAS add: write-once — adding content at an address already present is
a no-op, not an error. -/
def DhtStore.casAdd (s : DhtStore) (a : Address) (c : Content) : DhtStore :=
  if s.contentStorage.any (fun p => p.1 == a) then s
  else { s with contentStorage := s.contentStorage ++ [(a, c)] }

/-- Next EAV insertion index. -/
def DhtStore.nextIndex (s : DhtStore) : Nat :=
  s.metaStorage.length

/-- Modelled from the spec: the `hold_entry` DHT action (its reducer is
outside the translation unit): "On Valid: add to local DHT shard via an
explicit hold action".  The entry and its provenance header are added to
the CAS, and an `EntryHeader` EAV row links the entry address to the
header address.  Returns the held entry's address. -/
def hold_entry (ewh : EntryWithHeader) (s : DhtStore) : Except HolochainError (Address × DhtStore) :=
  let entryAddr := ewh.entry.address
  let headerAddr := ewh.header.address
  let s1 := s.casAdd entryAddr (.entry ewh.entry)
  let s2 := s1.casAdd headerAddr (.header ewh.header)
  let s3 : DhtStore :=
    { s2 with metaStorage := s2.metaStorage ++ [⟨entryAddr, .EntryHeader, headerAddr, s2.nextIndex⟩] }
  .ok (entryAddr, s3)

/-! ### Agent slice -/

/-- The agent (source chain) slice.  Modelled from the spec: the slice's
own reducer is outside the translation unit; the translated sources only
iterate its chain of headers (`iter_chain`), modelled as this list in
chain order. -/
structure AgentState where
  chain : List ChainHeader
  deriving DecidableEq, Repr

/-! ### Network slice -/

/-- Opaque p2p configuration handed to `P2pNetwork::new`. -/
abbrev P2pConfig := Nat

/-- A constructed p2p network connection; the embedding records the
configuration it was created from. -/
structure P2pNetwork where
  config : P2pConfig
  deriving DecidableEq, Repr

/-- `P2pNetwork::new`. -/
def P2pNetwork.new (config : P2pConfig) : P2pNetwork :=
  ⟨config⟩

/-- Settings carried by an `InitNetwork` action. -/
structure NetworkSettings where
  p2p_config : P2pConfig
  dna_address : Address
  agent_id : String
  deriving DecidableEq, Repr

/-- The network slice of the state: unset until `InitNetwork` succeeds. -/
structure NetworkState where
  network : Option P2pNetwork
  dna_address : Option Address
  agent_id : Option String
  deriving DecidableEq, Repr

/-- `NetworkState::new`. -/
def NetworkState.new : NetworkState :=
  ⟨none, none, none⟩

/-- Transport-level send error. -/
inductive NetError where
  | sendFailed
  deriving DecidableEq, Repr

/-- The wire messages the translated sources send. -/
inductive JsonProtocol where
  | TrackDna (dna_address : Address) (agent_id : String)
  deriving DecidableEq, Repr

/-- The part of the runtime `Context` the translated reducers consult: the
transport's `send`, an external collaborator whose outcome is an
environment parameter. -/
structure Context where
  send : JsonProtocol → Except NetError Unit

/-- Shallow embedding of Rust `Result::and_then`. -/
def rustAndThen {ε α β : Type} (r : Except ε α) (f : α → Except ε β) : Except ε β :=
  match r with
  | .ok a => f a
  | .error e => .error e

/-- `reduce_init` (network reducer for `InitNetwork`): constructs a new
network, sends `TrackDna` over it, and — via `Result::and_then`, i.e. only
when the send returned `Ok` — assigns the slice's `network`,
`dna_address` and `agent_id` fields.  The result of the `and_then` chain
is discarded (`let _ =`), so on a send error the slice is left as it
was. -/
def reduce_init (context : Context) (state : NetworkState) (settings : NetworkSettings) :
    NetworkState :=
  let network := P2pNetwork.new settings.p2p_config
  match rustAndThen
      (context.send (.TrackDna settings.dna_address settings.agent_id))
      (fun _ => Except.ok
        { state with
          network := some network
          dna_address := some settings.dna_address
          agent_id := some settings.agent_id }) with
  | .ok s => s
  | .error _ => state

/-! ### Actions, history, the State container -/

/-- The discriminated action commands the translated sources construct. -/
inductive Action where
  | InitNetwork (settings : NetworkSettings)
  | Hold (entry : EntryWithHeader)
  deriving DecidableEq, Repr

/-- Modelled from the spec: an action wrapped with an identity used for
history tracking and at-most-once bookkeeping (`action.rs` is outside the
translation unit); hashing and equality of wrappers go by the identity. -/
structure ActionWrapper where
  id : Nat
  action : Action
  deriving DecidableEq, Repr

/-- Membership in the history set, by wrapper identity. -/
def historyMem (a : ActionWrapper) (h : List ActionWrapper) : Bool :=
  h.any (fun b => b.id == a.id)

/-- `HashSet::insert` on the history set: a no-op when a wrapper with the
same identity is already present. -/
def historyInsert (a : ActionWrapper) (h : List ActionWrapper) : List ActionWrapper :=
  if historyMem a h then h else h ++ [a]

/-- Modelled from the spec: the network slice reducer dispatch (its
`reducers/mod.rs` is outside the translation unit) routes `InitNetwork`
actions to `reduce_init` and leaves the slice unchanged otherwise. -/
def networkReduce (context : Context) (state : NetworkState) (aw : ActionWrapper) :
    NetworkState :=
  match aw.action with
  | .InitNetwork settings => reduce_init context state settings
  | _ => state

/-- Modelled from the spec: the nucleus slice reducer is outside the
translation unit and no translated action touches it; modelled as inert. -/
def nucleusReduce (_context : Context) (state : Unit) (_aw : ActionWrapper) : Unit :=
  state

/-- Modelled from the spec: the agent slice reducer is outside the
translation unit and no translated action touches it; modelled as inert. -/
def agentReduce (_context : Context) (state : AgentState) (_aw : ActionWrapper) : AgentState :=
  state

/-- Modelled from the spec: the DHT slice reducer is outside the
translation unit and no translated action touches it directly (the hold
workflow's store effect is embedded in `hold_entry`); modelled as inert. -/
def dhtReduce (_context : Context) (state : DhtStore) (_aw : ActionWrapper) : DhtStore :=
  state

/-- The instance's state: four slices plus the history set of applied
action wrappers. -/
structure State where
  nucleus : Unit
  agent : AgentState
  dht : DhtStore
  network : NetworkState
  history : List ActionWrapper
  deriving DecidableEq, Repr

/-- `State::reduce`: builds a new state by reducing each slice against the
action, copying the history, then inserting the action's identity into the
history set.  The history is not consulted before reducing. -/
def State.reduce (context : Context) (s : State) (action_wrapper : ActionWrapper) : State :=
  let new_state : State :=
    { nucleus := nucleusReduce context s.nucleus action_wrapper
      agent := agentReduce context s.agent action_wrapper
      dht := dhtReduce context s.dht action_wrapper
      network := networkReduce context s.network action_wrapper
      history := s.history }
  { new_state with history := historyInsert action_wrapper new_state.history }

/-- The local-chain headers for an entry: `iter_chain` filtered to the
headers whose `entry_address` is the queried address (first half of
`State::get_headers`). -/
def State.localHeaders (s : State) (entry_address : Address) : List ChainHeader :=
  s.agent.chain.filter (fun h => h.entryAddress == entry_address)

/-- The iterator `collect::<Result<Vec<_>, _>>()`: collects a list of
fallible results into one result, stopping at the first error. -/
def collectResult {ε β : Type} : List (Except ε β) → Except ε (List β)
  | [] => .ok []
  | .error e :: _ => .error e
  | .ok b :: rest =>
    match collectResult rest with
    | .error e => .error e
    | .ok bs => .ok (b :: bs)

/-- `State::get_headers`: local chain headers for the entry first, then
the DHT-held headers found through `EntryHeader` metadata, excluding
header addresses already contributed by the local chain, resolved through
the DHT CAS (dropping addresses the CAS does not hold) and
deserialized. -/
def State.get_headers (s : State) (entry_address : Address) :
    Except HolochainError (List ChainHeader) :=
  let headers := s.localHeaders entry_address
  let header_addresses := headers.map ChainHeader.address
  let eavis := fetch_eavi s.dht.metaStorage ⟨some entry_address, some .EntryHeader, none⟩
  let values := eavis.map Eavi.value
  let kept := values.filter (fun a => !(header_addresses.contains a))
  match collectResult (kept.map (fun a => s.dht.fetch a)) with
  | .error e => .error e
  | .ok fetched =>
    let contents := fetched.filterMap id
    match collectResult (contents.map ChainHeader.try_from_content) with
    | .error e => .error e
    | .ok dht_headers => .ok (headers ++ dht_headers)

/-- Whether every header stored in a CAS is stored under its own content
address (the defining invariant of a content-addressable store). -/
def DhtStore.wellFormedCas (s : DhtStore) : Bool :=
  s.contentStorage.all (fun p =>
    match p.2 with
    | .header h => h.address == p.1
    | .entry _ => true)

/-! ### Hold workflow -/

/-- Environment of the hold workflow: the network fetch of the validation
package and the validation callback are asynchronous sub-actions outside
the translation unit; their outcomes are environment parameters. -/
structure HoldEnv where
  get_validation_package : ChainHeader → Except HolochainError (Option ValidationPackage)
  validate_entry : Entry → ValidationData → Except HolochainError Unit

/-- `hold_entry_workflow`: fetch the validation package from the entry's
source, fail with a generic error when none is obtainable, validate with
lifecycle `Dht` and action `Create`, and only on success dispatch the
hold action that adds the entry to the local DHT shard. -/
def hold_entry_workflow (env : HoldEnv) (entry_with_header : EntryWithHeader)
    (store : DhtStore) : Except HolochainError Address × DhtStore :=
  match env.get_validation_package entry_with_header.header with
  | .error e => (.error e, store)
  | .ok none =>
      (.error (.ErrorGeneric "Could not get validation package from source"), store)
  | .ok (some validation_package) =>
    let validation_data : ValidationData :=
      ⟨validation_package, .Dht, .Create⟩
    match env.validate_entry entry_with_header.entry validation_data with
    | .error e => (.error e, store)
    | .ok _ =>
      match hold_entry entry_with_header store with
      | .error e => (.error e, store)
      | .ok (address, store') => (.ok address, store')

/-! ### Memory boundary allocator and encoding word -/

/-- One machine word crossing the sandbox boundary (a 64-bit value). -/
abbrev Word := Nat

/-- Bound of the 32-bit halves of the encoding word. -/
def two32 : Nat := 2 ^ 32

/-- The three disjoint interpretations of the boundary encoding word. -/
inductive RibosomeEncodedValue where
  | Success
  | Failure (code : Nat)
  | Allocation (offset : Nat) (length : Nat)
  deriving DecidableEq, Repr

/-- Modelled from the spec: encoding of a `RibosomeEncodedValue` into the
64-bit boundary word (`RibosomeEncodingBits`; the encoding lives outside
the translation unit).  High 32 bits hold the offset, low 32 bits the
length; the all-zero word is the success sentinel, a zero offset with a
nonzero low half is "failure code N", and a nonzero offset is "allocation
at offset O length L".  The allocator never hands out offset 0, keeping
the three interpretations disjoint. -/
def encodeRV : RibosomeEncodedValue → Word
  | .Success => 0
  | .Failure code => code % two32
  | .Allocation offset len => offset % two32 * two32 + len % two32

/-- Modelled from the spec: decoding of the 64-bit boundary word. -/
def decodeRV (w : Word) : RibosomeEncodedValue :=
  let offset := w / two32 % two32
  let len := w % two32
  if offset = 0 then
    if len = 0 then .Success else .Failure len
  else .Allocation offset len

/-- An (offset, length) byte range inside the shared linear memory. -/
structure WasmAllocation where
  offset : Nat
  length : Nat
  deriving DecidableEq, Repr

/-- `WasmAllocation::try_from` on the allocation part of an encoding word:
a zero-length allocation is malformed. -/
def WasmAllocation.try_from (offset len : Nat) : Except HolochainError WasmAllocation :=
  if len = 0 then .error (.SerializationError "zero-length allocation")
  else .ok ⟨offset, len⟩

/-- Failure modes of the allocator's `write`. -/
inductive AllocationError where
  | zeroLength
  | outOfBounds
  deriving DecidableEq, Repr

/-- Modelled from the spec: the Memory Boundary Allocator
(`WasmPageManager`, outside the translation unit).  `mem` is the used
prefix of the shared linear memory; a write appends the payload as a fresh
allocation at the current end, a read copies a byte range out.  Offset 0
is reserved (the initial memory is nonempty), so a handed-out allocation
is never confusable with the success or failure interpretation of the
encoding word. -/
structure WasmPageManager where
  mem : Bytes
  deriving DecidableEq, Repr

/-- Fresh-allocation write: fails on an empty payload or when the memory
bound of the 32-bit offset/length halves would be exceeded. -/
def WasmPageManager.write (m : WasmPageManager) (bytes : Bytes) :
    Except AllocationError (WasmAllocation × WasmPageManager) :=
  if bytes.length = 0 then .error .zeroLength
  else if two32 ≤ m.mem.length + bytes.length then .error .outOfBounds
  else .ok (⟨m.mem.length, bytes.length⟩, ⟨m.mem ++ bytes⟩)

/-- Read an allocated byte range back out of linear memory. -/
def WasmPageManager.read (m : WasmPageManager) (allocation : WasmAllocation) : Bytes :=
  (m.mem.drop allocation.offset).take allocation.length

/-! ### Execution host (ribosome runtime) -/

/-- A serialized JSON payload, as its utf8 bytes (the byte-level model
makes the utf8 decoding step `String::from_utf8(...).unwrap()` the
identity, so that unwrap cannot fail here). -/
abbrev JsonString := Bytes

/-- `JsonString::null()`: the bytes of the text `null`. -/
def JsonString.null : JsonString := [110, 117, 108, 108]

/-- Identity context of a zome call. -/
structure ZomeCallData where
  dna_name : String
  fn_name : String
  deriving DecidableEq, Repr

/-- Data made available to the invoked host function. -/
inductive WasmCallData where
  | ZomeCall (data : ZomeCallData)
  | DirectCall (name : String)
  deriving DecidableEq, Repr

/-- The ribosome runtime: the memory state tracker between ribosome and
wasm plus the call data. -/
structure Runtime where
  memory_manager : WasmPageManager
  data : WasmCallData
  deriving DecidableEq, Repr

/-- Result type of a host function: either a wasmi trap or an optional
returned word (`Result<Option<RuntimeValue>, Trap>`). -/
abbrev ZomeApiResult := Except Trap (Option Word)

/-- `Runtime::zome_call_data`: traps (`TrapKind::Unreachable`) when the
runtime was entered through a direct call. -/
def Runtime.zome_call_data (r : Runtime) : Except Trap ZomeCallData :=
  match r.data with
  | .ZomeCall data => .ok data
  | .DirectCall _ => .error .unreachable

/-- `Runtime::load_json_string_from_args`: asserts that exactly one scalar
argument was passed, decodes it as an encoding word, and panics when the
word is a failure code or a malformed allocation; a success sentinel
yields the null JSON string, an allocation is read out of linear
memory. -/
def Runtime.load_json_string_from_args (r : Runtime) (args : List Word) :
    Except RustPanic JsonString :=
  match args with
  | [encoded] =>
    match decodeRV encoded with
    | .Success => .ok JsonString.null
    | .Failure _ => .error ⟨"received error code instead of valid encoded allocation"⟩
    | .Allocation offset len =>
      match WasmAllocation.try_from offset len with
      | .error _ => .error ⟨"called Result unwrap on an Err value"⟩
      | .ok allocation => .ok (r.memory_manager.read allocation)
  | _ => .error ⟨"assertion failed: args.len() == 1"⟩

/-- The ribosome error codes the translated sources return. -/
inductive RibosomeErrorCode where
  | Unspecified
  | ArgumentDeserializationFailed
  deriving DecidableEq, Repr

/-- Numeric value of an error code (nonzero, below the 32-bit bound). -/
def RibosomeErrorCode.code : RibosomeErrorCode → Nat
  | .Unspecified => 1
  | .ArgumentDeserializationFailed => 2

/-- The `ribosome_error_code!` macro: return the encoded failure word as a
successful host-function result. -/
def ribosome_error_code (c : RibosomeErrorCode) : ZomeApiResult :=
  .ok (some (encodeRV (.Failure c.code)))

/-- `Runtime::store_as_json_string`: serialize, append the terminating
sentinel byte, write through a fresh allocation and return the encoded
allocation handle, or the `Unspecified` failure word when allocation
fails. -/
def Runtime.store_as_json_string (r : Runtime) (j : JsonString) : ZomeApiResult × Runtime :=
  let s_bytes := j ++ [0]
  match r.memory_manager.write s_bytes with
  | .error _ => (ribosome_error_code .Unspecified, r)
  | .ok (allocation, mm) =>
    (.ok (some (encodeRV (.Allocation allocation.offset allocation.length))),
      { r with memory_manager := mm })

/-- Coarse byte serialization of a `HolochainError` inside a
`ZomeApiInternalResult` (serde is outside the translation unit; no claim
inspects these bytes). -/
def errorBytes : HolochainError → Bytes
  | .ErrorGeneric _ => [1]
  | .ValidationFailed _ => [2]
  | .SerializationError _ => [3]

/-- Serialization of a `ZomeApiInternalResult` built from a unit-valued
workflow result: success or failure tag plus error payload. -/
def internal_result_json : Except HolochainError Unit → JsonString
  | .ok _ => [111, 107]
  | .error e => 101 :: errorBytes e

/-- `Runtime::store_result`: wrap a workflow result in a
`ZomeApiInternalResult` and store it as a JSON string. -/
def Runtime.store_result (r : Runtime) (result : Except HolochainError Unit) :
    ZomeApiResult × Runtime :=
  r.store_as_json_string (internal_result_json result)

/-! ### The remove-entry host function -/

/-- `Address::try_from(JsonString)`: an address is serialized as a JSON
string — a quote byte, the content bytes, a closing quote byte.  Anything
else fails to deserialize. -/
def Address.try_from_json (j : JsonString) : Except HolochainError Address :=
  match j with
  | 34 :: rest =>
    if rest.getLast? = some 34 then .ok rest.dropLast
    else .error (.SerializationError "failed to deserialize Address")
  | _ => .error (.SerializationError "failed to deserialize Address")

/-- JSON serialization of an address (inverse of `Address.try_from_json`
on well-formed input); used to build concrete boundary payloads. -/
def addressJson (a : Address) : JsonString :=
  34 :: a ++ [34]

/-- Result of `get_entry_result_workflow` as consumed by the translated
sources: whether the entry was found and its latest version. -/
structure GetEntryResult where
  found : Bool
  latest : Option Entry
  deriving DecidableEq, Repr

/-- The chain and DHT-metadata state mutated by the remove-entry
operation's commit and metadata-update steps. -/
structure ExecStores where
  chain : List Entry
  dht_status : List (Address × Address)
  deriving DecidableEq, Repr

/-- Environment of a zome call: the asynchronous sub-actions the
translated sources drive to completion are outside the translation unit;
their outcomes are environment parameters. -/
structure ZomeCallEnv where
  get_entry_result : Address → Except HolochainError GetEntryResult
  build_validation_package : Entry → Except HolochainError ValidationPackage
  validate_entry : Entry → ValidationData → Except HolochainError Unit
  commit_result : Option HolochainError
  remove_result : Option HolochainError

/-- Modelled from the spec: the `commit_entry` action (outside the
translation unit) appends the validated entry to the local chain and
returns its address; `commit_result` injects the action's possible
failure. -/
def commit_entry (env : ZomeCallEnv) (entry : Entry)
    (_maybe_link_update_delete : Option Address) (stores : ExecStores) :
    Except HolochainError Address × ExecStores :=
  match env.commit_result with
  | some e => (.error e, stores)
  | none => (.ok entry.address, { stores with chain := stores.chain ++ [entry] })

/-- Modelled from the spec: the `remove_entry` DHT action (outside the
translation unit) updates the DHT metadata status of the deleted entry to
reflect removal, recording the (deleted address, deletion address) pair;
`remove_result` injects the action's possible failure. -/
def remove_entry (env : ZomeCallEnv) (deleted_entry_address : Address)
    (deletion_entry_address : Address) (stores : ExecStores) :
    Except HolochainError Unit × ExecStores :=
  match env.remove_result with
  | some e => (.error e, stores)
  | none =>
    (.ok (), { stores with
      dht_status := stores.dht_status ++ [(deleted_entry_address, deletion_entry_address)] })

/-- `invoke_remove_entry`: deserialize the target address (failure yields
the `ArgumentDeserializationFailed` failure word), resolve the latest
known version of the target, build a deletion entry referencing that
latest address, then — stopping at the first failing step — build the
validation package, validate with lifecycle `Chain` and action `Delete`,
commit the deletion entry, and update the DHT metadata status; the final
result is stored back through the boundary. -/
def invoke_remove_entry (env : ZomeCallEnv) (runtime : Runtime) (args : List Word)
    (stores : ExecStores) : Except RustPanic (ZomeApiResult × Runtime × ExecStores) :=
  match runtime.zome_call_data with
  | .error t => .ok (.error t, runtime, stores)
  | .ok _zome_call_data =>
    match runtime.load_json_string_from_args args with
    | .error p => .error p
    | .ok args_str =>
      match Address.try_from_json args_str with
      | .error _ =>
        .ok (ribosome_error_code .ArgumentDeserializationFailed, runtime, stores)
      | .ok deleted_entry_address =>
        match env.get_entry_result deleted_entry_address with
        | .error _ => .ok (ribosome_error_code .Unspecified, runtime, stores)
        | .ok entry_result =>
          if entry_result.found = false then
            .ok (ribosome_error_code .Unspecified, runtime, stores)
          else
            match entry_result.latest with
            | none => .error ⟨"called Option unwrap on a None value"⟩
            | some latest =>
              let deleted_entry_address := latest.address
              let deletion_entry := Entry.Deletion deleted_entry_address
              let result_stores :=
                match env.build_validation_package deletion_entry with
                | .error e => (Except.error e, stores)
                | .ok validation_package =>
                  let validation_data : ValidationData :=
                    ⟨validation_package, .Chain, .Delete⟩
                  match env.validate_entry deletion_entry validation_data with
                  | .error e => (Except.error e, stores)
                  | .ok _ =>
                    match commit_entry env deletion_entry (some deleted_entry_address) stores with
                    | (.error e, st) => (Except.error e, st)
                    | (.ok _address, st) =>
                      match remove_entry env deleted_entry_address deletion_entry.address st with
                      | (.error e, st2) => (Except.error e, st2)
                      | (.ok _, st2) => (Except.ok (), st2)
              let stored := runtime.store_result result_stores.1
              .ok (stored.1, stored.2, result_stores.2)

/-! ### Host-function dispatch -/

/-- The host-function table's variants; `MissingNo` is the marker for an
index that corresponds to no function. -/
inductive ZomeApiFunction where
  | MissingNo
  | Debug
  | CommitAppEntry
  | GetAppEntry
  | RemoveEntry
  deriving DecidableEq, Repr

/-- Modelled from the spec: the fixed table mapping the stable numeric
index to the host function (the `Defn` impl is outside the translation
unit); index 0 and any index past the table map to `MissingNo`. -/
def ZomeApiFunction.from_index : Nat → ZomeApiFunction
  | 1 => .Debug
  | 2 => .CommitAppEntry
  | 3 => .GetAppEntry
  | 4 => .RemoveEntry
  | _ => .MissingNo

/-- Modelled from the spec: callable form of a host function.  Host
functions other than `RemoveEntry` are outside the translation unit and
modelled as returning the explicit success sentinel without effects. -/
def ZomeApiFunction.as_fn : ZomeApiFunction →
    ZomeCallEnv → Runtime → List Word → ExecStores →
    Except RustPanic (ZomeApiResult × Runtime × ExecStores)
  | .RemoveEntry => fun env runtime args stores => invoke_remove_entry env runtime args stores
  | _ => fun _ runtime _ stores => .ok (.ok (some (encodeRV .Success)), runtime, stores)

/-- `Externals::invoke_index` for `Runtime`: an index that maps to
`MissingNo` is a panic ("unknown function index"); otherwise the function
is converted to its callable form and called with the given arguments. -/
def Runtime.invoke_index (env : ZomeCallEnv) (runtime : Runtime) (index : Nat)
    (args : List Word) (stores : ExecStores) :
    Except RustPanic (ZomeApiResult × Runtime × ExecStores) :=
  match ZomeApiFunction.from_index index with
  | .MissingNo => .error ⟨"unknown function index"⟩
  | zf => zf.as_fn env runtime args stores

/-! ### Inbound network handlers -/

/-- A JSON value delivered by a peer, modelled by its deserialization
behaviour: either it deserializes to an `EntryWithHeader` or it is
malformed (the tag distinguishes different malformed payloads). -/
inductive JsonContent where
  | ewh (e : EntryWithHeader)
  | malformed (tag : Nat)
  deriving DecidableEq, Repr

/-- serde deserialization of a delivered JSON value as `EntryWithHeader`. -/
def parseEntryWithHeader : JsonContent → Option EntryWithHeader
  | .ewh e => some e
  | .malformed _ => none

/-- Payload of an inbound `StoreEntry` message. -/
structure EntryData where
  entry_address : Address
  entry_content : JsonContent
  deriving DecidableEq, Repr

/-- Payload of an inbound `StoreMeta` message (the `attr` field embeds the
message's attribute tag). -/
structure DhtMetaData where
  entry_address : Address
  attr : String
  content_list : List JsonContent
  deriving DecidableEq, Repr

/-- The unit of concurrency a handler spawns (the workflow it starts), or
no work for the accepted-but-unacted-upon attribute tags. -/
inductive DhtWork where
  | holdEntry (e : EntryWithHeader)
  | holdLink (e : EntryWithHeader)
  | removeLink (e : EntryWithHeader)
  | noop
  deriving DecidableEq, Repr

/-- The CRUD-status attribute tag constant (`STATUS_NAME`). -/
def STATUS_NAME : String := "crud-status"

/-- The CRUD-link attribute tag constant (`LINK_NAME`). -/
def LINK_NAME : String := "crud-link"

/-- `handle_store_entry`: deserializes the delivered entry content as an
`EntryWithHeader` with a bare `unwrap` — malformed content panics — and
spawns the hold workflow on it. -/
def handle_store_entry (dht_data : EntryData) : Except RustPanic DhtWork :=
  match parseEntryWithHeader dht_data.entry_content with
  | none => .error ⟨"called Result unwrap on an Err value"⟩
  | some entry_with_header => .ok (.holdEntry entry_with_header)

/-- `handle_store_meta`: dispatches on the attribute tag.  For `link` and
`link_remove` it asserts that the content list has exactly one element and
`expect`s it to deserialize to an `EntryWithHeader` — anything else
panics — and spawns the hold-link / remove-link workflow; the CRUD-status
and CRUD-link tags and unknown tags produce no work. -/
def handle_store_meta (dht_meta_data : DhtMetaData) : Except RustPanic DhtWork :=
  if dht_meta_data.attr = "link" then
    match dht_meta_data.content_list with
    | [c] =>
      match parseEntryWithHeader c with
      | none => .error ⟨"dht_meta_data should be EntryWithHeader"⟩
      | some e => .ok (.holdLink e)
    | _ => .error ⟨"assertion failed: content_list.len() == 1"⟩
  else if dht_meta_data.attr = "link_remove" then
    match dht_meta_data.content_list with
    | [c] =>
      match parseEntryWithHeader c with
      | none => .error ⟨"dht_meta_data should be EntryWithHader"⟩
      | some e => .ok (.removeLink e)
    | _ => .error ⟨"assertion failed: content_list.len() == 1"⟩
  else .ok .noop

/-! ### Concrete instances used to evaluate the theorems -/

/-- A concrete zome-call identity context. -/
def exZcd : ZomeCallData := ⟨"test-dna", "test-fn"⟩

/-- A runtime over fresh linear memory (one reserved byte). -/
def exRuntime : Runtime := ⟨⟨[0]⟩, .ZomeCall exZcd⟩

/-- A concrete application entry. -/
def exEntry : Entry := .App [5] [6]

/-- A concrete entry-with-header pairing. -/
def exEwh : EntryWithHeader := ⟨exEntry, ⟨exEntry.address, [9], 0⟩⟩

/-- An empty DHT store. -/
def exStore : DhtStore := ⟨[], []⟩

/-- A concrete validation package. -/
def exPackage : ValidationPackage := ⟨⟨exEntry.address, [9], 0⟩⟩

/-- Hold-workflow environment whose package fetch and validation succeed. -/
def exHoldEnvOk : HoldEnv := ⟨fun _ => .ok (some exPackage), fun _ _ => .ok ()⟩

/-- Hold-workflow environment whose validation rejects the entry. -/
def exHoldEnvRej : HoldEnv :=
  ⟨fun _ => .ok (some exPackage), fun _ _ => .error (.ValidationFailed "FAIL wat")⟩

/-- A local chain header for entry address `[5]`. -/
def exH1 : ChainHeader := ⟨[5], [1], 1⟩

/-- A remotely authored header for the same entry address `[5]`. -/
def exH2 : ChainHeader := ⟨[5], [2], 2⟩

/-- A state holding one local header for `[5]` and one DHT-held header
reachable through `EntryHeader` metadata. -/
def exGetState : State :=
  ⟨(), ⟨[exH1]⟩,
    ⟨[(exH2.address, .header exH2)], [⟨[5], .EntryHeader, exH2.address, 0⟩]⟩,
    ⟨none, none, none⟩, []⟩

/-- A runtime whose linear memory holds the JSON serialization of the
address `[7]` at allocation (offset 1, length 3). -/
def exRemoveRt : Runtime := ⟨⟨[0, 34, 7, 34]⟩, .ZomeCall exZcd⟩

/-- The encoded allocation handle for that stored argument. -/
def exArgWord : Word := encodeRV (.Allocation 1 3)

/-- Zome-call environment in which every sub-action succeeds and the
latest version of the target is `exEntry`. -/
def exRemoveEnv : ZomeCallEnv :=
  { get_entry_result := fun _ => .ok ⟨true, some exEntry⟩
    build_validation_package := fun _ => .ok exPackage
    validate_entry := fun _ _ => .ok ()
    commit_result := none
    remove_result := none }

/-- A runtime whose linear memory holds a payload that is not a JSON
address (the bytes `nu`) at allocation (offset 1, length 2). -/
def exBadArgRt : Runtime := ⟨⟨[0, 110, 117]⟩, .ZomeCall exZcd⟩

/-- An inbound `StoreEntry` payload whose content does not deserialize. -/
def exBadEntryData : EntryData := ⟨[1], .malformed 0⟩

/-- An inbound `StoreMeta` payload with attribute `link` and an empty
content list. -/
def exBadMeta : DhtMetaData := ⟨[1], "link", []⟩

/-- A context whose transport send succeeds. -/
def exOkCtx : Context := ⟨fun _ => .ok ()⟩

/-- A context whose transport send fails. -/
def exFailCtx : Context := ⟨fun _ => .error .sendFailed⟩

/-- Concrete network settings. -/
def exSettings1 : NetworkSettings := ⟨0, [1], "alice"⟩

/-- Concrete network settings with a different DNA address. -/
def exSettings2 : NetworkSettings := ⟨0, [2], "alice"⟩

/-- The empty initial state. -/
def exS0 : State := ⟨(), ⟨[]⟩, ⟨[], []⟩, ⟨none, none, none⟩, []⟩

/-- A wrapped `InitNetwork` action with identity 1. -/
def exA1 : ActionWrapper := ⟨1, .InitNetwork exSettings1⟩

/-- A wrapped `InitNetwork` action with identity 2. -/
def exA2 : ActionWrapper := ⟨2, .InitNetwork exSettings2⟩

/-- The state reached by dispatching `exA1` and then `exA2` from the
initial state. -/
def exS2 : State := (exS0.reduce exOkCtx exA1).reduce exOkCtx exA2

/-! ## Claim C10: `reduce_init` is atomic with respect to send failure -/

/-- C10: in `reduce_init`, when sending `TrackDna` over the newly
constructed network fails, the network slice's `network`, `dna_address`
and `agent_id` fields are left exactly as they were; they are assigned
(the new network and the settings' values) only when the send succeeds. -/
theorem reduce_init_send_atomicity (context : Context) (state : NetworkState)
    (settings : NetworkSettings) :
    (∀ e, context.send (.TrackDna settings.dna_address settings.agent_id) = .error e →
      reduce_init context state settings = state) ∧
    (context.send (.TrackDna settings.dna_address settings.agent_id) = .ok () →
      reduce_init context state settings =
        { state with
          network := some (P2pNetwork.new settings.p2p_config)
          dna_address := some settings.dna_address
          agent_id := some settings.agent_id }) := by
  constructor
  · intro e he
    simp [reduce_init, rustAndThen, he]
  · intro hok
    simp [reduce_init, rustAndThen, hok]

/-- Witness for `reduce_init_send_atomicity`: at a concretely failing
transport the slice is untouched. -/
theorem reduce_init_send_atomicity_witness :
    exFailCtx.send (.TrackDna exSettings1.dna_address exSettings1.agent_id) =
      .error .sendFailed ∧
    reduce_init exFailCtx NetworkState.new exSettings1 = NetworkState.new :=
  ⟨rfl, (reduce_init_send_atomicity exFailCtx NetworkState.new exSettings1).1 .sendFailed rfl⟩

/-! ## Claim C7: unknown host-function index is fatal -/

/-- C7: invoking a host-function index that maps to no known
`ZomeApiFunction` through `Externals::invoke_index` panics ("unknown
function index") — it terminates the execution context instead of
returning a recoverable error to the caller. -/
theorem invoke_index_unknown_is_fatal (env : ZomeCallEnv) (runtime : Runtime) (index : Nat)
    (args : List Word) (stores : ExecStores)
    (h : ZomeApiFunction.from_index index = .MissingNo) :
    Runtime.invoke_index env runtime index args stores = .error ⟨"unknown function index"⟩ := by
  simp [Runtime.invoke_index, h]

/-- Witness for `invoke_index_unknown_is_fatal` at index 99. -/
theorem invoke_index_unknown_is_fatal_witness :
    ZomeApiFunction.from_index 99 = .MissingNo ∧
    Runtime.invoke_index exRemoveEnv exRuntime 99 [] ⟨[], []⟩ =
      .error ⟨"unknown function index"⟩ :=
  ⟨rfl, invoke_index_unknown_is_fatal exRemoveEnv exRuntime 99 [] ⟨[], []⟩ rfl⟩

/-! ## Claim C9: inbound handlers are not total on malformed peer input -/

/-- Whether a `StoreMeta` content list has exactly one element that
deserializes to an `EntryWithHeader`. -/
def wellFormedMetaList (cl : List JsonContent) : Bool :=
  match cl with
  | [c] => (parseEntryWithHeader c).isSome
  | _ => false

/-- C9: `handle_store_entry` panics when the delivered entry content does
not deserialize to an `EntryWithHeader`, and `handle_store_meta` with
attribute `link` or `link_remove` succeeds exactly when the content list
has exactly one element that deserializes to an `EntryWithHeader` —
otherwise it panics instead of logging and swallowing the message. -/
theorem inbound_handlers_panic_on_malformed (d : EntryData) (dm : DhtMetaData)
    (hd : parseEntryWithHeader d.entry_content = none)
    (hm : dm.attr = "link" ∨ dm.attr = "link_remove") :
    handle_store_entry d = .error ⟨"called Result unwrap on an Err value"⟩ ∧
    ((∃ w, handle_store_meta dm = .ok w) ↔ wellFormedMetaList dm.content_list = true) := by
  constructor
  · simp [handle_store_entry, hd]
  · rcases hm with hm | hm <;>
    · rcases hcl : dm.content_list with _ | ⟨c, rest⟩
      · simp_all [handle_store_meta, wellFormedMetaList]
      · rcases rest with _ | ⟨c2, rest2⟩
        · cases hc : parseEntryWithHeader c <;>
            simp_all [handle_store_meta, wellFormedMetaList]
        · simp_all [handle_store_meta, wellFormedMetaList]

/-- Witness for `inbound_handlers_panic_on_malformed`: a malformed
`StoreEntry` payload and a `link` metadata message with an empty content
list. -/
theorem inbound_handlers_panic_on_malformed_witness :
    handle_store_entry exBadEntryData = .error ⟨"called Result unwrap on an Err value"⟩ ∧
    ((∃ w, handle_store_meta exBadMeta = .ok w) ↔
      wellFormedMetaList exBadMeta.content_list = true) :=
  inbound_handlers_panic_on_malformed exBadEntryData exBadMeta rfl (Or.inl rfl)

/-! ## Claim C1: re-dispatching an action already in history -/

/-- C1 counterexample: `exA1`'s identity is already in `exS2`'s history
set, yet `State::reduce` re-dispatches it anyway — `reduce` never
consults the history, so `reduce_init` runs again and overwrites the
network slice's fields with `exA1`'s settings, and the resulting state is
not observably identical to `exS2` (its `dna_address` changes back). -/
theorem reduce_redispatch_not_noop :
    historyMem exA1 exS2.history = true ∧ State.reduce exOkCtx exS2 exA1 ≠ exS2 := by
  decide

/-- C1 (amended): re-dispatching an `ActionWrapper` whose identity is
already in the history set leaves the history component unchanged (the
set insert deduplicates), but `State::reduce` does not consult history
before reducing, so every slice reducer runs again and the slices may
change. -/
theorem reduce_redispatch_history_unchanged (context : Context) (s : State)
    (a : ActionWrapper) (h : historyMem a s.history = true) :
    (State.reduce context s a).history = s.history := by
  simp [State.reduce, historyInsert, h]

/-- Witness for `reduce_redispatch_history_unchanged` at the concrete
re-dispatch of `exA1`. -/
theorem reduce_redispatch_history_unchanged_witness :
    historyMem exA1 exS2.history = true ∧
    (State.reduce exOkCtx exS2 exA1).history = exS2.history :=
  ⟨by decide, reduce_redispatch_history_unchanged exOkCtx exS2 exA1 (by decide)⟩

/-! ## Claim C2: structure of the hold workflow -/

/-- C2: `hold_entry_workflow` first fetches the validation package from
the entry's author; when no package is obtainable it terminates with a
failure, leaving the store untouched (without validating or holding);
otherwise it validates with lifecycle `Dht` and action `Create`, and only
when validation succeeds does it dispatch the hold action that adds the
entry to the local DHT shard. -/
theorem hold_entry_workflow_steps (env : HoldEnv) (ewh : EntryWithHeader) (store : DhtStore) :
    (∀ e, env.get_validation_package ewh.header = .error e →
      hold_entry_workflow env ewh store = (.error e, store)) ∧
    (env.get_validation_package ewh.header = .ok none →
      hold_entry_workflow env ewh store =
        (.error (.ErrorGeneric "Could not get validation package from source"), store)) ∧
    (∀ pkg, env.get_validation_package ewh.header = .ok (some pkg) →
      (∀ e, env.validate_entry ewh.entry ⟨pkg, .Dht, .Create⟩ = .error e →
        hold_entry_workflow env ewh store = (.error e, store)) ∧
      (env.validate_entry ewh.entry ⟨pkg, .Dht, .Create⟩ = .ok () →
        ∀ address store', hold_entry ewh store = .ok (address, store') →
          hold_entry_workflow env ewh store = (.ok address, store'))) := by
  refine ⟨fun e he => ?_, fun hnone => ?_,
    fun pkg hpkg => ⟨fun e he => ?_, fun hok address store' hhold => ?_⟩⟩ <;>
    simp [hold_entry_workflow, *]

/-- Witness for `hold_entry_workflow_steps`: with a concretely successful
package fetch and validation, the workflow holds the entry. -/
theorem hold_entry_workflow_steps_witness :
    exHoldEnvOk.get_validation_package exEwh.header = .ok (some exPackage) ∧
    hold_entry_workflow exHoldEnvOk exEwh exStore =
      (.ok exEwh.entry.address,
        ⟨[(exEwh.entry.address, .entry exEwh.entry), (exEwh.header.address, .header exEwh.header)],
          [⟨exEwh.entry.address, .EntryHeader, exEwh.header.address, 0⟩]⟩) :=
  ⟨rfl, ((hold_entry_workflow_steps exHoldEnvOk exEwh exStore).2.2 exPackage rfl).2 rfl
    exEwh.entry.address _ (by decide)⟩

/-! ## Claim C3: validation rejection leaves the store unchanged -/

/-- C3: when the validation predicate rejects the entry, the hold
workflow returns that validation error, performs no store mutation, and
the entry does not appear in subsequent Get queries (every lookup answers
as it did before). -/
theorem hold_entry_workflow_validation_rejection (env : HoldEnv) (ewh : EntryWithHeader)
    (store : DhtStore) (pkg : ValidationPackage) (e : HolochainError)
    (hpkg : env.get_validation_package ewh.header = .ok (some pkg))
    (hval : env.validate_entry ewh.entry ⟨pkg, .Dht, .Create⟩ = .error e) :
    hold_entry_workflow env ewh store = (.error e, store) ∧
    ∀ a, ((hold_entry_workflow env ewh store).2).get_entry a = store.get_entry a := by
  have h : hold_entry_workflow env ewh store = (.error e, store) := by
    simp [hold_entry_workflow, hpkg, hval]
  exact ⟨h, fun a => by rw [h]⟩

/-- Witness for `hold_entry_workflow_validation_rejection` at the
concretely rejecting environment; the rejected entry is absent from Get
queries afterwards. -/
theorem hold_entry_workflow_validation_rejection_witness :
    exHoldEnvRej.validate_entry exEwh.entry ⟨exPackage, .Dht, .Create⟩ =
      .error (.ValidationFailed "FAIL wat") ∧
    hold_entry_workflow exHoldEnvRej exEwh exStore =
      (.error (.ValidationFailed "FAIL wat"), exStore) ∧
    ((hold_entry_workflow exHoldEnvRej exEwh exStore).2).get_entry exEwh.entry.address = none :=
  ⟨rfl,
    (hold_entry_workflow_validation_rejection exHoldEnvRej exEwh exStore exPackage
      (.ValidationFailed "FAIL wat") rfl rfl).1,
    ((hold_entry_workflow_validation_rejection exHoldEnvRej exEwh exStore exPackage
      (.ValidationFailed "FAIL wat") rfl rfl).2 exEwh.entry.address).trans rfl⟩

/-! ## Encoding-word and allocator lemmas -/

/-- Decoding inverts encoding on allocation words whose offset is nonzero
and whose halves fit the 32-bit bound. -/
theorem decodeRV_encodeRV_allocation (offset len : Nat) (h1 : 0 < offset)
    (h2 : offset < two32) (h4 : len < two32) :
    decodeRV (encodeRV (.Allocation offset len)) = .Allocation offset len := by
  have hpos : 0 < two32 := by norm_num [two32]
  simp only [encodeRV, decodeRV]
  rw [Nat.mod_eq_of_lt h2, Nat.mod_eq_of_lt h4, Nat.mul_comm offset two32,
    Nat.mul_add_div hpos, Nat.div_eq_of_lt h4, Nat.add_zero, Nat.mod_eq_of_lt h2,
    Nat.mul_add_mod, Nat.mod_eq_of_lt h4, if_neg h1.ne']

/-- Decoding inverts encoding on failure words whose code is nonzero and
fits the 32-bit bound. -/
theorem decodeRV_encodeRV_failure (code : Nat) (h1 : 0 < code) (h2 : code < two32) :
    decodeRV (encodeRV (.Failure code)) = .Failure code := by
  simp only [encodeRV, decodeRV]
  rw [Nat.mod_eq_of_lt h2, Nat.div_eq_of_lt h2]
  simp [Nat.mod_eq_of_lt h2, h1.ne']

/-- Characterization of a successful allocator write: the allocation
starts at the old end of memory, spans the payload, and the payload is
appended; the payload was nonempty and the memory bound holds. -/
theorem write_ok_characterization (m : WasmPageManager) (bytes : Bytes)
    (allocation : WasmAllocation) (mm : WasmPageManager)
    (h : m.write bytes = .ok (allocation, mm)) :
    allocation = ⟨m.mem.length, bytes.length⟩ ∧ mm = ⟨m.mem ++ bytes⟩ ∧
    bytes.length ≠ 0 ∧ m.mem.length + bytes.length < two32 := by
  unfold WasmPageManager.write at h
  split at h
  next hlen => exact Except.noConfusion h
  next hlen =>
    split at h
    next hbound => exact Except.noConfusion h
    next hbound =>
      injection h with h3
      exact ⟨(congrArg Prod.fst h3).symm, (congrArg Prod.snd h3).symm, hlen,
        Nat.lt_of_not_le hbound⟩

/-! ## Claim C5: store / load round trip across the boundary -/

/-- C5: storing a serializable payload appends the terminating sentinel
byte, writes the result through a fresh allocation and returns the
encoded allocation handle (or the encoded `Unspecified` failure word when
allocation fails); decoding that handle and reading the allocation
through `load_json_string_from_args` reproduces the exact payload bytes
plus terminator. -/
theorem store_as_json_string_roundtrip (r : Runtime) (j : JsonString)
    (hmem : 1 ≤ r.memory_manager.mem.length) :
    (∀ allocation mm, r.memory_manager.write (j ++ [0]) = .ok (allocation, mm) →
      r.store_as_json_string j =
        (.ok (some (encodeRV (.Allocation allocation.offset allocation.length))),
          { r with memory_manager := mm }) ∧
      Runtime.load_json_string_from_args { r with memory_manager := mm }
        [encodeRV (.Allocation allocation.offset allocation.length)] = .ok (j ++ [0])) ∧
    (∀ e, r.memory_manager.write (j ++ [0]) = .error e →
      r.store_as_json_string j = (ribosome_error_code .Unspecified, r)) := by
  constructor
  · intro allocation mm hw
    obtain ⟨ha, hmm, hlen, hbound⟩ := write_ok_characterization _ _ _ _ hw
    subst ha hmm
    refine ⟨by simp [Runtime.store_as_json_string, hw], ?_⟩
    have hofs : 0 < r.memory_manager.mem.length := hmem
    have ho2 : r.memory_manager.mem.length < two32 := by omega
    have hl2 : (j ++ [0]).length < two32 := by omega
    have hdec := decodeRV_encodeRV_allocation _ _ hofs ho2 hl2
    simp only [Runtime.load_json_string_from_args, hdec]
    simp [WasmAllocation.try_from, hlen, WasmPageManager.read, List.drop_left,
      List.take_length]
  · intro e he
    simp [Runtime.store_as_json_string, he]

/-- Witness for `store_as_json_string_roundtrip` on the payload bytes
`[104, 105]` over fresh memory. -/
theorem store_as_json_string_roundtrip_witness :
    exRuntime.memory_manager.write ([104, 105] ++ [0]) = .ok (⟨1, 3⟩, ⟨[0, 104, 105, 0]⟩) ∧
    (exRuntime.store_as_json_string [104, 105] =
        (.ok (some (encodeRV (.Allocation 1 3))),
          { exRuntime with memory_manager := ⟨[0, 104, 105, 0]⟩ }) ∧
      Runtime.load_json_string_from_args
        { exRuntime with memory_manager := ⟨[0, 104, 105, 0]⟩ }
        [encodeRV (.Allocation 1 3)] = .ok ([104, 105] ++ [0])) :=
  ⟨by decide,
    (store_as_json_string_roundtrip exRuntime [104, 105] (by decide)).1 ⟨1, 3⟩
      ⟨[0, 104, 105, 0]⟩ (by decide)⟩

/-! ## Claim C6: malformed boundary data -/

/-- C6 counterexample: the word `4` is an encoded failure word
(`Failure 4`), and passing it where an allocation is expected makes
`load_json_string_from_args` panic — the host aborts instead of reporting
an encoded failure word to the caller. -/
theorem load_failure_word_panics_cex :
    decodeRV 4 = .Failure 4 ∧
    Runtime.load_json_string_from_args exRuntime [4] =
      .error ⟨"received error code instead of valid encoded allocation"⟩ := by
  decide

/-- C6 (amended): an argument that fails to deserialize (a non-Address
argument to `invoke_remove_entry`) is reported to the sandboxed caller as
the encoded `ArgumentDeserializationFailed` failure word; but an encoded
failure word passed where an allocation is expected is not reported that
way — `load_json_string_from_args` panics on it, aborting the execution
context. -/
theorem boundary_argument_error_handling (env : ZomeCallEnv) (runtime : Runtime)
    (args : List Word) (stores : ExecStores) (zcd : ZomeCallData) (args_str : JsonString)
    (e : HolochainError) (hz : runtime.data = .ZomeCall zcd)
    (hload : runtime.load_json_string_from_args args = .ok args_str)
    (haddr : Address.try_from_json args_str = .error e) :
    invoke_remove_entry env runtime args stores =
      .ok (ribosome_error_code .ArgumentDeserializationFailed, runtime, stores) ∧
    ∀ code, 0 < code → code < two32 →
      runtime.load_json_string_from_args [encodeRV (.Failure code)] =
        .error ⟨"received error code instead of valid encoded allocation"⟩ := by
  constructor
  · simp [invoke_remove_entry, Runtime.zome_call_data, hz, hload, haddr]
  · intro code hc1 hc2
    have hdec := decodeRV_encodeRV_failure code hc1 hc2
    simp [Runtime.load_json_string_from_args, hdec]

/-- Witness for `boundary_argument_error_handling`: the stored bytes `nu`
do not deserialize to an address and the host answers with the
`ArgumentDeserializationFailed` failure word. -/
theorem boundary_argument_error_handling_witness :
    Address.try_from_json [110, 117] =
      .error (.SerializationError "failed to deserialize Address") ∧
    invoke_remove_entry exRemoveEnv exBadArgRt [encodeRV (.Allocation 1 2)] ⟨[], []⟩ =
      .ok (ribosome_error_code .ArgumentDeserializationFailed, exBadArgRt, ⟨[], []⟩) :=
  ⟨rfl,
    (boundary_argument_error_handling exRemoveEnv exBadArgRt [encodeRV (.Allocation 1 2)]
      ⟨[], []⟩ exZcd [110, 117] (.SerializationError "failed to deserialize Address")
      rfl (by decide) rfl).1⟩

/-! ## Claim C8: structure of the remove-entry operation -/

/-- C8: `invoke_remove_entry` resolves the latest known address of the
target, builds a deletion entry referencing that latest address, then —
stopping at the first failing step — builds the validation package,
validates it with action `Delete`, commits the deletion entry, and
separately updates the DHT metadata status of the deleted entry, in that
order: a validation failure leaves both stores untouched, a commit
failure leaves both untouched, a metadata failure happens after the
commit, and on full success the chain gains the deletion entry and the
DHT metadata records the removal. -/
theorem invoke_remove_entry_pipeline (env : ZomeCallEnv) (runtime : Runtime)
    (args : List Word) (stores : ExecStores) (zcd : ZomeCallData) (args_str : JsonString)
    (address : Address) (entry_result : GetEntryResult) (latest : Entry)
    (hz : runtime.data = .ZomeCall zcd)
    (hload : runtime.load_json_string_from_args args = .ok args_str)
    (haddr : Address.try_from_json args_str = .ok address)
    (hget : env.get_entry_result address = .ok entry_result)
    (hfound : entry_result.found = true)
    (hlatest : entry_result.latest = some latest) :
    (∀ e, env.build_validation_package (Entry.Deletion latest.address) = .error e →
      invoke_remove_entry env runtime args stores =
        .ok ((runtime.store_result (.error e)).1, (runtime.store_result (.error e)).2,
          stores)) ∧
    (∀ pkg e, env.build_validation_package (Entry.Deletion latest.address) = .ok pkg →
      env.validate_entry (Entry.Deletion latest.address) ⟨pkg, .Chain, .Delete⟩ = .error e →
      invoke_remove_entry env runtime args stores =
        .ok ((runtime.store_result (.error e)).1, (runtime.store_result (.error e)).2,
          stores)) ∧
    (∀ pkg e, env.build_validation_package (Entry.Deletion latest.address) = .ok pkg →
      env.validate_entry (Entry.Deletion latest.address) ⟨pkg, .Chain, .Delete⟩ = .ok () →
      env.commit_result = some e →
      invoke_remove_entry env runtime args stores =
        .ok ((runtime.store_result (.error e)).1, (runtime.store_result (.error e)).2,
          stores)) ∧
    (∀ pkg e, env.build_validation_package (Entry.Deletion latest.address) = .ok pkg →
      env.validate_entry (Entry.Deletion latest.address) ⟨pkg, .Chain, .Delete⟩ = .ok () →
      env.commit_result = none → env.remove_result = some e →
      invoke_remove_entry env runtime args stores =
        .ok ((runtime.store_result (.error e)).1, (runtime.store_result (.error e)).2,
          ⟨stores.chain ++ [Entry.Deletion latest.address], stores.dht_status⟩)) ∧
    (∀ pkg, env.build_validation_package (Entry.Deletion latest.address) = .ok pkg →
      env.validate_entry (Entry.Deletion latest.address) ⟨pkg, .Chain, .Delete⟩ = .ok () →
      env.commit_result = none → env.remove_result = none →
      invoke_remove_entry env runtime args stores =
        .ok ((runtime.store_result (.ok ())).1, (runtime.store_result (.ok ())).2,
          ⟨stores.chain ++ [Entry.Deletion latest.address],
            stores.dht_status ++
              [(latest.address, (Entry.Deletion latest.address).address)]⟩)) := by
  refine ⟨fun e he => ?_, fun pkg e hp hv => ?_, fun pkg e hp hv hc => ?_,
    fun pkg e hp hv hc hr => ?_, fun pkg hp hv hc hr => ?_⟩ <;>
    simp [invoke_remove_entry, Runtime.zome_call_data, commit_entry, remove_entry,
      hz, hload, haddr, hget, hfound, hlatest, *]

/-- Witness for `invoke_remove_entry_pipeline`: a full concrete run in
which every step succeeds, the deletion entry references the latest
version's address, the chain gains the deletion entry, and the DHT
metadata records the removal. -/
theorem invoke_remove_entry_pipeline_witness :
    Address.try_from_json [34, 7, 34] = .ok [7] ∧
    invoke_remove_entry exRemoveEnv exRemoveRt [exArgWord] ⟨[], []⟩ =
      .ok ((exRemoveRt.store_result (.ok ())).1, (exRemoveRt.store_result (.ok ())).2,
        ⟨[Entry.Deletion exEntry.address],
          [(exEntry.address, (Entry.Deletion exEntry.address).address)]⟩) :=
  ⟨rfl, by
    have h := (invoke_remove_entry_pipeline exRemoveEnv exRemoveRt [exArgWord] ⟨[], []⟩
      exZcd [34, 7, 34] [7] ⟨true, some exEntry⟩ exEntry rfl (by decide) rfl rfl rfl
      rfl).2.2.2.2 exPackage rfl rfl rfl rfl
    simpa using h⟩

/-! ## Collect lemmas for `get_headers` -/

/-- Collecting the CAS fetches never fails: each fetch is a total lookup. -/
theorem collectResult_fetch (s : DhtStore) (l : List Address) :
    collectResult (l.map (fun a => s.fetch a)) =
      .ok (l.map (fun a => (s.contentStorage.find? (fun p => p.1 == a)).map Prod.snd)) := by
  induction l with
  | nil => rfl
  | cons a l ih =>
    simp only [DhtStore.fetch] at ih ⊢
    simp [collectResult, ih]

/-- Every element of a successfully collected list comes from some input
element mapped to it. -/
theorem collectResult_mem_ok {ε α β : Type} (f : α → Except ε β) (l : List α) (out : List β)
    (h : collectResult (l.map f) = .ok out) :
    ∀ b ∈ out, ∃ a ∈ l, f a = .ok b := by
  induction l generalizing out with
  | nil =>
    simp only [List.map_nil, collectResult] at h
    injection h with h1
    subst h1
    simp
  | cons a l ih =>
    simp only [List.map_cons] at h
    cases hfa : f a with
    | error e => rw [hfa] at h; exact Except.noConfusion h
    | ok b0 =>
      rw [hfa] at h
      simp only [collectResult] at h
      cases hrest : collectResult (l.map f) with
      | error e => rw [hrest] at h; exact Except.noConfusion h
      | ok bs =>
        rw [hrest] at h
        injection h with h1
        subst h1
        intro b hb
        rcases List.mem_cons.mp hb with hb | hb
        · exact ⟨a, List.mem_cons_self a l, hb ▸ hfa⟩
        · obtain ⟨a2, ha2, hfa2⟩ := ih bs hrest b hb
          exact ⟨a2, List.mem_cons_of_mem a ha2, hfa2⟩

/-! ## Claim C4: `get_headers` merges the two provenance sources -/

/-- C4: `State::get_headers` returns the local chain headers for the
entry first (as a prefix), followed by DHT-held headers, and — given the
CAS invariant that headers are stored under their own address — every
header in the DHT part has an address different from every local chain
header's address: the result is deduplicated by header address with
local-chain headers first. -/
theorem get_headers_local_first_dedup (s : State) (ea : Address) (hs : List ChainHeader)
    (hwf : s.dht.wellFormedCas = true) (h : s.get_headers ea = .ok hs) :
    s.localHeaders ea <+: hs ∧
    ∀ hh ∈ hs.drop (s.localHeaders ea).length,
      ChainHeader.address hh ∉ (s.localHeaders ea).map ChainHeader.address := by
  simp only [State.get_headers, collectResult_fetch] at h
  split at h
  next e hc => exact Except.noConfusion h
  next dht_headers hc =>
    injection h with h1
    subst h1
    refine ⟨List.prefix_append _ _, ?_⟩
    rw [List.drop_left]
    intro hh hmem
    obtain ⟨c, hcmem, hcok⟩ := collectResult_mem_ok _ _ _ hc hh hmem
    have hc_header : c = Content.header hh := by
      cases c with
      | header h2 =>
        simp [ChainHeader.try_from_content] at hcok
        rw [hcok]
      | entry e2 => simp [ChainHeader.try_from_content] at hcok
    rw [List.mem_filterMap] at hcmem
    obtain ⟨o, homem, hoc⟩ := hcmem
    rw [List.mem_map] at homem
    obtain ⟨a, hamem, hao⟩ := homem
    rw [← hao] at hoc
    simp only [id] at hoc
    rw [Option.map_eq_some'] at hoc
    obtain ⟨p, hfind, hp2⟩ := hoc
    have hpmem : p ∈ s.dht.contentStorage := List.mem_of_find?_eq_some hfind
    have hppred := List.find?_some hfind
    have hpa : p.1 = a := by simpa using hppred
    have hwf2 := List.all_eq_true.mp hwf p hpmem
    rw [hp2, hc_header] at hwf2
    simp only [beq_iff_eq] at hwf2
    rw [List.mem_filter] at hamem
    obtain ⟨_havalues, hanotin⟩ := hamem
    intro hcontra
    rw [hwf2, hpa] at hcontra
    simp [hcontra] at hanotin

/-- Witness for `get_headers_local_first_dedup`: a concrete state with
one local and one DHT-held header for the same entry. -/
theorem get_headers_local_first_dedup_witness :
    exGetState.dht.wellFormedCas = true ∧
    exGetState.get_headers [5] = .ok [exH1, exH2] ∧
    (exGetState.localHeaders [5] <+: [exH1, exH2] ∧
      ∀ hh ∈ ([exH1, exH2].drop (exGetState.localHeaders [5]).length),
        ChainHeader.address hh ∉ (exGetState.localHeaders [5]).map ChainHeader.address) :=
  ⟨by decide, by decide,
    get_headers_local_first_dedup exGetState [5] [exH1, exH2] (by decide) (by decide)⟩

end Conductor
